import Mathlib

/-!
Verification of the CRUD todo service: a shallow embedding of the data model
and the five operations (create, get-one, get-all, update, delete), with
theorems settling the specification claims.

Timestamps are modelled as natural numbers; each mutating operation takes the
current clock value `now` as an explicit argument (the TypeScript code calls
`new Date()`).  The persistent store is a list of rows in insertion order
together with the auto-increment counter the table uses for fresh ids.
-/

namespace TodoApp

/-- The sole entity, mirroring the `Todo` row shape of the todos table:
integer id, required title, nullable description, completed flag, and the
two timestamps. -/
structure Todo where
  id : Nat
  title : String
  description : Option String
  completed : Bool
  created_at : Nat
  updated_at : Nat
deriving DecidableEq, Repr

/-- The persistent store: the todos table as a list of rows in insertion
order plus the auto-increment counter for the serial `id` column. -/
structure Store where
  rows : List Todo
  nextId : Nat
deriving DecidableEq, Repr

/-- Create input `{title: string, description?: string | null}`.  The outer
Option is presence of the field (`none` = omitted / undefined), the inner
Option is nullability (`some none` = explicit null), so the two are
distinguishable at the interface. -/
structure CreateTodoInput where
  title : String
  description : Option (Option String)
deriving DecidableEq, Repr

/-- Update input `{id: number, title?: string, description?: string | null,
completed?: boolean}`; `none` in an outer Option means the field was absent
(undefined) in the request. -/
structure UpdateTodoInput where
  id : Nat
  title : Option String
  description : Option (Option String)
  completed : Option Bool
deriving DecidableEq, Repr

/-- The description defaulting written in the create handler declaration in
src/unnamed/part_002: `description: input.description || null`.  In
JavaScript both `undefined`, `null` and the empty string are falsy, so all
three normalize to null; any other string is kept. -/
def descOrNull : Option (Option String) → Option String
  | some (some s) => if s = "" then none else some s
  | _ => none

/-- Modelled from the spec: the real create handler is missing from src
(src/unnamed/part_002 holds only its placeholder declaration; its tests are
in src/server/src/tests/create_todo.test.ts).  Per the spec, the title must
be non-empty (validation failure is rejected before persistence), and a
successful create inserts a new row with a fresh auto-assigned id,
`completed = false` and `created_at = updated_at = now`.  The description
defaulting `input.description || null` is taken verbatim from the
declaration in part_002 (`descOrNull`). -/
def createTodo (now : Nat) (input : CreateTodoInput) (st : Store) :
    Except String (Todo × Store) :=
  if input.title = "" then
    Except.error "Title must not be empty"
  else
    let t : Todo :=
      { id := st.nextId
        title := input.title
        description := descOrNull input.description
        completed := false
        created_at := now
        updated_at := now }
    Except.ok (t, { rows := st.rows ++ [t], nextId := st.nextId + 1 })

/-- From src/unnamed/part_003 (`getTodo`): select the rows whose id equals
the input id and return the first one, or null when there is none. -/
def getTodo (id : Nat) (st : Store) : Option Todo :=
  (st.rows.filter (fun t => t.id == id)).head?

/-- The row patch built by `updateTodo` in
src/server/src/handlers/update_todo.ts lines 17-38: `updated_at` is always
set to the current time, and each of title / description / completed is
overwritten exactly when it was present (not undefined) in the input. -/
def applyUpdate (now : Nat) (input : UpdateTodoInput) (t : Todo) : Todo :=
  { t with
    updated_at := now
    title := match input.title with
      | some s => s
      | none => t.title
    description := match input.description with
      | some d => d
      | none => t.description
    completed := match input.completed with
      | some b => b
      | none => t.completed }

/-- From src/server/src/handlers/update_todo.ts lines 15-52 (`updateTodo`):
`UPDATE todos SET updateData WHERE id = input.id RETURNING *` patches every
row whose id matches and returns the first returned row, or null when no
row matched. -/
def updateTodo (now : Nat) (input : UpdateTodoInput) (st : Store) :
    Option Todo × Store :=
  let newRows := st.rows.map fun t =>
    if t.id == input.id then applyUpdate now input t else t
  ((newRows.filter (fun t => t.id == input.id)).head?,
   { st with rows := newRows })

/-- Modelled from the spec: the delete handler is missing from src (only its
tests, in src/unnamed/part_001, are present).  Delete removes exactly the
rows whose id matches and returns true precisely when such a row existed. -/
def deleteTodo (id : Nat) (st : Store) : Bool × Store :=
  (st.rows.any (fun t => t.id == id),
   { st with rows := st.rows.filter (fun t => !(t.id == id)) })

/-- Insert a todo into a newest-first list, in front of the first row that
is not strictly newer; among rows of equal `created_at` the inserted row
comes first. -/
def insertByNewest (t : Todo) : List Todo → List Todo
  | [] => [t]
  | r :: rs =>
    if r.created_at ≤ t.created_at then t :: r :: rs
    else r :: insertByNewest t rs

/-- Stable sort of the rows, newest first by `created_at`; rows with equal
`created_at` keep their insertion order. -/
def sortByNewest : List Todo → List Todo
  | [] => []
  | t :: ts => insertByNewest t (sortByNewest ts)

/-- Modelled from the spec: the get-all handler is missing from src (only
its tests, in src/server/src/tests/get_todos.test.ts, are present).  GetAll
returns all rows ordered newest first by `created_at`, ties broken by
insertion order, without modifying the store. -/
def getTodos (st : Store) : List Todo :=
  sortByNewest st.rows

/-! ### Helper lemmas about the update handler -/

theorem applyUpdate_id (now : Nat) (input : UpdateTodoInput) (t : Todo) :
    (applyUpdate now input t).id = t.id :=
  rfl

theorem applyUpdate_created_at (now : Nat) (input : UpdateTodoInput) (t : Todo) :
    (applyUpdate now input t).created_at = t.created_at :=
  rfl

theorem update_filter_map (now : Nat) (input : UpdateTodoInput) :
    ∀ rows : List Todo,
      (rows.map fun t =>
          if t.id == input.id then applyUpdate now input t else t).filter
          (fun t => t.id == input.id)
        = (rows.filter (fun t => t.id == input.id)).map (applyUpdate now input)
  | [] => rfl
  | r :: rs => by
    have ih := update_filter_map now input rs
    by_cases h : r.id = input.id
    · simp only [List.map_cons, List.filter_cons, applyUpdate_id, beq_iff_eq, h,
        if_true] at ih ⊢
      rw [ih]
    · simp only [List.map_cons, List.filter_cons, beq_iff_eq, h, if_false,
        Bool.false_eq_true] at ih ⊢
      rw [ih]

theorem update_rows_no_match (now : Nat) (input : UpdateTodoInput) :
    ∀ rows : List Todo, (∀ r ∈ rows, r.id ≠ input.id) →
      (rows.map fun t =>
        if t.id == input.id then applyUpdate now input t else t) = rows
  | [], _ => rfl
  | r :: rs, h => by
    have hr : r.id ≠ input.id := h r (List.mem_cons_self r rs)
    have ih := update_rows_no_match now input rs
      (fun x hx => h x (List.mem_cons_of_mem r hx))
    simp only [List.map_cons, beq_iff_eq, hr, if_false,
      Bool.false_eq_true] at ih ⊢
    rw [ih]

theorem filter_id_nil (i : Nat) :
    ∀ rows : List Todo, (∀ r ∈ rows, r.id ≠ i) →
      rows.filter (fun t => t.id == i) = []
  | [], _ => rfl
  | r :: rs, h => by
    have hr : r.id ≠ i := h r (List.mem_cons_self r rs)
    have ih := filter_id_nil i rs
      (fun x hx => h x (List.mem_cons_of_mem r hx))
    simp only [List.filter_cons, beq_iff_eq, hr, if_false,
      Bool.false_eq_true] at ih ⊢
    exact ih

/-! ### Claim theorems about Update -/

/-- Claim C1: for every stored record and every update request, Update
applies exactly the fields explicitly present in the request — a field left
undefined keeps its stored value, an explicit null for description clears it
to the no-value marker, and these two cases are distinguished — and on every
successful update the record's `updated_at` is set to a strictly later
timestamp (the clock having advanced past the stored `updated_at`) even when
no user-visible field changed. -/
theorem update_applies_exactly_present_fields
    (now : Nat) (input : UpdateTodoInput) (st : Store) (r : Todo)
    (hr : st.rows.filter (fun t => t.id == input.id) = [r])
    (hclock : r.updated_at < now) :
    ∃ r', (updateTodo now input st).fst = some r' ∧
      (input.title = none → r'.title = r.title) ∧
      (∀ s, input.title = some s → r'.title = s) ∧
      (input.description = none → r'.description = r.description) ∧
      (input.description = some none → r'.description = none) ∧
      (∀ s, input.description = some (some s) → r'.description = some s) ∧
      (input.completed = none → r'.completed = r.completed) ∧
      (∀ b, input.completed = some b → r'.completed = b) ∧
      r'.updated_at = now ∧
      r.updated_at < r'.updated_at := by
  refine ⟨applyUpdate now input r, ?_, ?_, ?_, ?_, ?_, ?_, ?_, ?_, rfl, hclock⟩
  · show ((st.rows.map fun t =>
        if t.id == input.id then applyUpdate now input t else t).filter
          (fun t => t.id == input.id)).head? = some (applyUpdate now input r)
    rw [update_filter_map, hr]
    rfl
  all_goals intros h1
  case _ => simp [applyUpdate, h1]
  case _ => intro hs; simp [applyUpdate, hs]
  case _ => simp [applyUpdate, h1]
  case _ => simp [applyUpdate, h1]
  case _ => intro hs; simp [applyUpdate, hs]
  case _ => simp [applyUpdate, h1]
  case _ => intro hb; simp [applyUpdate, hb]

theorem update_applies_exactly_present_fields_witness :
    ∃ r', (updateTodo 5 ⟨0, none, none, some true⟩
            ⟨[⟨0, "a", some "d", false, 0, 1⟩], 1⟩).fst = some r' ∧
      ((⟨0, none, none, some true⟩ : UpdateTodoInput).title = none →
        r'.title = "a") ∧
      (∀ s, (⟨0, none, none, some true⟩ : UpdateTodoInput).title = some s →
        r'.title = s) ∧
      ((⟨0, none, none, some true⟩ : UpdateTodoInput).description = none →
        r'.description = some "d") ∧
      ((⟨0, none, none, some true⟩ : UpdateTodoInput).description = some none →
        r'.description = none) ∧
      (∀ s, (⟨0, none, none, some true⟩ : UpdateTodoInput).description
          = some (some s) → r'.description = some s) ∧
      ((⟨0, none, none, some true⟩ : UpdateTodoInput).completed = none →
        r'.completed = false) ∧
      (∀ b, (⟨0, none, none, some true⟩ : UpdateTodoInput).completed = some b →
        r'.completed = b) ∧
      r'.updated_at = 5 ∧
      (1 : Nat) < r'.updated_at :=
  update_applies_exactly_present_fields 5 ⟨0, none, none, some true⟩
    ⟨[⟨0, "a", some "d", false, 0, 1⟩], 1⟩ ⟨0, "a", some "d", false, 0, 1⟩
    (by decide) (by decide)

/-- Claim C5: for every id that matches no stored record, Update returns the
not-found signal (none) and leaves the store completely unchanged. -/
theorem update_absent_id_not_found
    (now : Nat) (input : UpdateTodoInput) (st : Store)
    (h : ∀ r ∈ st.rows, r.id ≠ input.id) :
    updateTodo now input st = (none, st) := by
  show (((st.rows.map fun t =>
      if t.id == input.id then applyUpdate now input t else t).filter
        (fun t => t.id == input.id)).head?,
    ({ st with rows := st.rows.map fun t =>
        if t.id == input.id then applyUpdate now input t else t } : Store))
      = (none, st)
  rw [update_rows_no_match now input st.rows h, filter_id_nil input.id st.rows h]
  rfl

theorem update_absent_id_not_found_witness :
    updateTodo 5 ⟨7, some "x", none, none⟩ ⟨[⟨0, "a", none, false, 0, 0⟩], 1⟩
      = (none, ⟨[⟨0, "a", none, false, 0, 0⟩], 1⟩) :=
  update_absent_id_not_found 5 ⟨7, some "x", none, none⟩
    ⟨[⟨0, "a", none, false, 0, 0⟩], 1⟩ (by decide)

/-- Claim C9: the update handler does not reject empty-string titles the way
create does: an update request carrying `title = ""` on a stored record
succeeds without a validation error and the record's title becomes the empty
string. -/
theorem update_accepts_empty_title
    (now : Nat) (input : UpdateTodoInput) (st : Store) (r : Todo)
    (hr : st.rows.filter (fun t => t.id == input.id) = [r])
    (ht : input.title = some "") :
    ∃ r', (updateTodo now input st).fst = some r' ∧ r'.title = "" := by
  refine ⟨applyUpdate now input r, ?_, ?_⟩
  · show ((st.rows.map fun t =>
        if t.id == input.id then applyUpdate now input t else t).filter
          (fun t => t.id == input.id)).head? = some (applyUpdate now input r)
    rw [update_filter_map, hr]
    rfl
  · simp [applyUpdate, ht]

theorem update_accepts_empty_title_witness :
    ∃ r', (updateTodo 5 ⟨0, some "", none, none⟩
            ⟨[⟨0, "a", none, false, 0, 0⟩], 1⟩).fst = some r' ∧
      r'.title = "" :=
  update_accepts_empty_title 5 ⟨0, some "", none, none⟩
    ⟨[⟨0, "a", none, false, 0, 0⟩], 1⟩ ⟨0, "a", none, false, 0, 0⟩
    (by decide) rfl

/-! ### Claim theorems about Create -/

/-- Claim C2: for every valid create input (on a store whose row ids are
below the auto-increment counter, as the serial column guarantees), calling
Create and then GetOne with the id of the created record returns a record
identical to the record Create returned. -/
theorem create_then_get_roundtrip
    (now : Nat) (input : CreateTodoInput) (st : Store) (t : Todo) (st' : Store)
    (hfresh : ∀ r ∈ st.rows, r.id < st.nextId)
    (hok : createTodo now input st = Except.ok (t, st')) :
    getTodo t.id st' = some t := by
  unfold createTodo at hok
  by_cases h : input.title = ""
  · rw [if_pos h] at hok
    exact absurd hok (by simp)
  · rw [if_neg h] at hok
    simp only [Except.ok.injEq, Prod.mk.injEq] at hok
    obtain ⟨ht, hst⟩ := hok
    subst ht
    subst hst
    show ((st.rows ++
        [Todo.mk st.nextId input.title (descOrNull input.description)
          false now now]).filter (fun x => x.id == st.nextId)).head?
      = some (Todo.mk st.nextId input.title (descOrNull input.description)
          false now now)
    rw [List.filter_append,
      filter_id_nil st.nextId st.rows
        (fun r hr => Nat.ne_of_lt (hfresh r hr))]
    simp

theorem create_then_get_roundtrip_witness :
    getTodo (Todo.mk 0 "t" none false 3 3).id
        ⟨[Todo.mk 0 "t" none false 3 3], 1⟩
      = some (Todo.mk 0 "t" none false 3 3) :=
  create_then_get_roundtrip 3 ⟨"t", none⟩ ⟨[], 0⟩
    (Todo.mk 0 "t" none false 3 3) ⟨[Todo.mk 0 "t" none false 3 3], 1⟩
    (by decide) rfl

/-- Claim C3: for every create input with a non-empty title (i.e. one that
Create accepts), Create returns a new Todo whose id differs from the id of
every existing record, two successive creates return distinct ids,
`completed` is false, `created_at` equals `updated_at`, and the description
is the no-value marker whenever the input description is omitted or
explicitly null. -/
theorem create_returns_fresh_defaults
    (now now2 : Nat) (input input2 : CreateTodoInput) (st : Store)
    (t : Todo) (st' : Store)
    (hfresh : ∀ r ∈ st.rows, r.id < st.nextId)
    (hok : createTodo now input st = Except.ok (t, st')) :
    (∀ r ∈ st.rows, t.id ≠ r.id) ∧
    t.completed = false ∧
    t.created_at = t.updated_at ∧
    (input.description = none → t.description = none) ∧
    (input.description = some none → t.description = none) ∧
    (∀ t2 st2, createTodo now2 input2 st' = Except.ok (t2, st2) →
      t2.id ≠ t.id) := by
  unfold createTodo at hok
  by_cases h : input.title = ""
  · rw [if_pos h] at hok
    exact absurd hok (by simp)
  · rw [if_neg h] at hok
    simp only [Except.ok.injEq, Prod.mk.injEq] at hok
    obtain ⟨ht, hst⟩ := hok
    subst ht
    subst hst
    refine ⟨?_, rfl, rfl, ?_, ?_, ?_⟩
    · intro r hr
      exact Nat.ne_of_gt (hfresh r hr)
    · intro hd
      show descOrNull input.description = none
      rw [hd]
      rfl
    · intro hd
      show descOrNull input.description = none
      rw [hd]
      rfl
    · intro t2 st2 hok2
      unfold createTodo at hok2
      by_cases h2 : input2.title = ""
      · rw [if_pos h2] at hok2
        exact absurd hok2 (by simp)
      · rw [if_neg h2] at hok2
        simp only [Except.ok.injEq, Prod.mk.injEq] at hok2
        obtain ⟨ht2, -⟩ := hok2
        subst ht2
        exact Nat.succ_ne_self st.nextId

theorem create_returns_fresh_defaults_witness :
    (∀ r ∈ ([] : List Todo), (Todo.mk 0 "t" none false 4 4).id ≠ r.id) ∧
    (Todo.mk 0 "t" none false 4 4).completed = false ∧
    (Todo.mk 0 "t" none false 4 4).created_at
      = (Todo.mk 0 "t" none false 4 4).updated_at ∧
    ((CreateTodoInput.mk "t" none).description = none →
      (Todo.mk 0 "t" none false 4 4).description = none) ∧
    ((CreateTodoInput.mk "t" none).description = some none →
      (Todo.mk 0 "t" none false 4 4).description = none) ∧
    (∀ t2 st2,
      createTodo 9 ⟨"u", none⟩ ⟨[Todo.mk 0 "t" none false 4 4], 1⟩
          = Except.ok (t2, st2) →
        t2.id ≠ (Todo.mk 0 "t" none false 4 4).id) :=
  create_returns_fresh_defaults 4 9 ⟨"t", none⟩ ⟨"u", none⟩ ⟨[], 0⟩
    (Todo.mk 0 "t" none false 4 4) ⟨[Todo.mk 0 "t" none false 4 4], 1⟩
    (by decide) rfl

/-- Claim C4: for every create input whose title is the empty string, Create
rejects the request as a validation failure before any record reaches the
store: the call evaluates to an error, so no record is persisted and no Todo
is returned for such an input. -/
theorem create_empty_title_rejected
    (now : Nat) (input : CreateTodoInput) (st : Store)
    (h : input.title = "") :
    createTodo now input st = Except.error "Title must not be empty" ∧
    ∀ t st', createTodo now input st ≠ Except.ok (t, st') := by
  unfold createTodo
  rw [if_pos h]
  exact ⟨rfl, fun t st' hc => by exact absurd hc (by simp)⟩

theorem create_empty_title_rejected_witness :
    createTodo 0 ⟨"", none⟩ ⟨[], 0⟩
        = Except.error "Title must not be empty" ∧
    ∀ t st', createTodo 0 ⟨"", none⟩ ⟨[], 0⟩ ≠ Except.ok (t, st') :=
  create_empty_title_rejected 0 ⟨"", none⟩ ⟨[], 0⟩ rfl

/-- Claim C10: Create normalizes an empty-string description the same way
as an omitted or null one: for every create input whose description is the
empty string, the returned record's description is the no-value marker
(null), not the empty string.  This is the defaulting
`description: input.description || null` written in src/unnamed/part_002. -/
theorem create_empty_description_normalized
    (now : Nat) (input : CreateTodoInput) (st : Store) (t : Todo) (st' : Store)
    (hd : input.description = some (some ""))
    (hok : createTodo now input st = Except.ok (t, st')) :
    t.description = none := by
  unfold createTodo at hok
  by_cases h : input.title = ""
  · rw [if_pos h] at hok
    exact absurd hok (by simp)
  · rw [if_neg h] at hok
    simp only [Except.ok.injEq, Prod.mk.injEq] at hok
    obtain ⟨ht, -⟩ := hok
    subst ht
    show descOrNull input.description = none
    rw [hd]
    rfl

theorem create_empty_description_normalized_witness :
    (Todo.mk 0 "a" none false 0 0).description = none :=
  create_empty_description_normalized 0 ⟨"a", some (some "")⟩ ⟨[], 0⟩
    (Todo.mk 0 "a" none false 0 0) ⟨[Todo.mk 0 "a" none false 0 0], 1⟩
    rfl rfl

/-! ### Claim theorem about Delete -/

/-- Claim C6: Delete returns true if and only if a record with the given id
existed; after the call a row is in the store exactly when it was there
before and its id differs from the deleted one, so the matching record is
removed, an absent id yields false, and every record with a different id is
left unchanged (point deletion, no cascade). -/
theorem delete_point_semantics (i : Nat) (st : Store) :
    ((deleteTodo i st).fst = true ↔ ∃ r, r ∈ st.rows ∧ r.id = i) ∧
    (∀ r, r ∈ (deleteTodo i st).snd.rows ↔ r ∈ st.rows ∧ r.id ≠ i) := by
  constructor
  · show st.rows.any (fun t => t.id == i) = true ↔ _
    simp [List.any_eq_true]
  · intro r
    show r ∈ st.rows.filter (fun t => !(t.id == i)) ↔ _
    simp [List.mem_filter]

theorem delete_point_semantics_witness :
    ((deleteTodo 1 ⟨[Todo.mk 1 "a" none false 0 0, Todo.mk 2 "b" none true 1 1],
        3⟩).fst = true ↔
      ∃ r, r ∈ [Todo.mk 1 "a" none false 0 0, Todo.mk 2 "b" none true 1 1] ∧
        r.id = 1) ∧
    (∀ r, r ∈ (deleteTodo 1
        ⟨[Todo.mk 1 "a" none false 0 0, Todo.mk 2 "b" none true 1 1],
          3⟩).snd.rows ↔
      r ∈ [Todo.mk 1 "a" none false 0 0, Todo.mk 2 "b" none true 1 1] ∧
        r.id ≠ 1) :=
  delete_point_semantics 1
    ⟨[Todo.mk 1 "a" none false 0 0, Todo.mk 2 "b" none true 1 1], 3⟩

/-! ### Lemmas about the newest-first stable sort -/

theorem insertByNewest_perm (t : Todo) :
    ∀ l : List Todo, List.Perm (insertByNewest t l) (t :: l)
  | [] => List.Perm.refl _
  | r :: rs => by
    by_cases h : r.created_at ≤ t.created_at
    · simp only [insertByNewest, if_pos h]
      exact List.Perm.refl _
    · simp only [insertByNewest, if_neg h]
      exact ((insertByNewest_perm t rs).cons r).trans (List.Perm.swap t r rs)

theorem sortByNewest_perm :
    ∀ l : List Todo, List.Perm (sortByNewest l) l
  | [] => List.Perm.refl _
  | t :: ts =>
    (insertByNewest_perm t (sortByNewest ts)).trans ((sortByNewest_perm ts).cons t)

theorem insertByNewest_pairwise (t : Todo) :
    ∀ l : List Todo,
      l.Pairwise (fun a b => b.created_at ≤ a.created_at) →
      (insertByNewest t l).Pairwise (fun a b => b.created_at ≤ a.created_at)
  | [], _ => by simp [insertByNewest]
  | r :: rs, h => by
    rcases List.pairwise_cons.mp h with ⟨hr, hrs⟩
    by_cases hc : r.created_at ≤ t.created_at
    · simp only [insertByNewest, if_pos hc]
      refine List.pairwise_cons.mpr ⟨?_, h⟩
      intro b hb
      rcases List.mem_cons.mp hb with rfl | hb2
      · exact hc
      · exact le_trans (hr b hb2) hc
    · simp only [insertByNewest, if_neg hc]
      refine List.pairwise_cons.mpr ⟨?_, insertByNewest_pairwise t rs hrs⟩
      intro b hb
      rcases List.mem_cons.mp ((insertByNewest_perm t rs).mem_iff.mp hb) with
        rfl | hb2
      · exact le_of_not_le hc
      · exact hr b hb2

theorem sortByNewest_pairwise :
    ∀ l : List Todo,
      (sortByNewest l).Pairwise (fun a b => b.created_at ≤ a.created_at)
  | [] => List.Pairwise.nil
  | t :: ts => insertByNewest_pairwise t (sortByNewest ts) (sortByNewest_pairwise ts)

theorem insertByNewest_filter_ne (t : Todo) (c : Nat) (hc : t.created_at ≠ c) :
    ∀ l : List Todo,
      (insertByNewest t l).filter (fun r => r.created_at == c)
        = l.filter (fun r => r.created_at == c)
  | [] => by simp [insertByNewest, hc]
  | r :: rs => by
    have ih := insertByNewest_filter_ne t c hc rs
    by_cases h : r.created_at ≤ t.created_at
    · simp only [insertByNewest, if_pos h, List.filter_cons, beq_iff_eq, hc,
        if_false, Bool.false_eq_true, decide_eq_true_eq]
    · simp only [insertByNewest, if_neg h, List.filter_cons]
      rw [ih]

theorem insertByNewest_filter_eq (t : Todo) :
    ∀ l : List Todo,
      (insertByNewest t l).filter (fun r => r.created_at == t.created_at)
        = t :: l.filter (fun r => r.created_at == t.created_at)
  | [] => by simp [insertByNewest]
  | r :: rs => by
    have ih := insertByNewest_filter_eq t rs
    by_cases h : r.created_at ≤ t.created_at
    · simp only [insertByNewest, if_pos h]
      simp [List.filter_cons]
    · have hne : r.created_at ≠ t.created_at := (not_le.mp h).ne'
      simp only [insertByNewest, if_neg h, List.filter_cons, beq_iff_eq, hne,
        if_false, Bool.false_eq_true, decide_eq_true_eq]
      simp [hne, ih]

theorem sortByNewest_filter (c : Nat) :
    ∀ l : List Todo,
      (sortByNewest l).filter (fun r => r.created_at == c)
        = l.filter (fun r => r.created_at == c)
  | [] => rfl
  | t :: ts => by
    by_cases h : t.created_at = c
    · subst h
      show (insertByNewest t (sortByNewest ts)).filter
          (fun r => r.created_at == t.created_at) = _
      rw [insertByNewest_filter_eq t (sortByNewest ts),
        sortByNewest_filter t.created_at ts]
      simp [List.filter_cons]
    · show (insertByNewest t (sortByNewest ts)).filter
        (fun r => r.created_at == c) = _
      rw [insertByNewest_filter_ne t c h (sortByNewest ts),
        sortByNewest_filter c ts]
      simp [List.filter_cons, h]

/-! ### Claim theorem about GetAll -/

/-- Claim C7: GetAll returns the empty sequence exactly when the store is
empty, and otherwise returns exactly the stored records (a permutation of
the rows) ordered newest first by `created_at`, with ties broken by
insertion order (for every timestamp, the records carrying it appear in the
same order as in the stored row list); being a pure function of the store,
it does not modify it. -/
theorem getAll_newest_first (st : Store) :
    (getTodos st = [] ↔ st.rows = []) ∧
    List.Perm (getTodos st) st.rows ∧
    (getTodos st).Pairwise (fun a b => b.created_at ≤ a.created_at) ∧
    ∀ c, (getTodos st).filter (fun r => r.created_at == c)
      = st.rows.filter (fun r => r.created_at == c) := by
  refine ⟨⟨?_, ?_⟩, sortByNewest_perm st.rows, sortByNewest_pairwise st.rows,
    fun c => sortByNewest_filter c st.rows⟩
  · intro h
    have hp := sortByNewest_perm st.rows
    rw [getTodos] at h
    rw [h] at hp
    exact (hp.symm.eq_nil)
  · intro h
    simp [getTodos, h, sortByNewest]

theorem getAll_newest_first_witness :
    (getTodos ⟨[], 0⟩ = [] ↔ ([] : List Todo) = []) ∧
    List.Perm (getTodos ⟨[], 0⟩) [] ∧
    (getTodos ⟨[], 0⟩).Pairwise (fun a b => b.created_at ≤ a.created_at) ∧
    ∀ c, (getTodos ⟨[], 0⟩).filter (fun r => r.created_at == c)
      = ([] : List Todo).filter (fun r => r.created_at == c) :=
  getAll_newest_first ⟨[], 0⟩

/-! ### Claim theorem about the store invariants -/

/-- Claim C8: on any store satisfying `created_at ≤ updated_at` for every
row (and whose rows were created no later than the current clock), the
invariant is established by Create for the new record and preserved for all
others, preserved by Update and by Delete, and no operation after creation
changes a record's `created_at` or id: Update leaves the (id, created_at)
pair of every row exactly as it was, and Create only appends a new pair.
GetOne and GetAll do not touch the store at all. -/
theorem created_le_updated_invariant
    (now : Nat) (cin : CreateTodoInput) (uin : UpdateTodoInput) (i : Nat)
    (st : Store)
    (hinv : ∀ r ∈ st.rows, r.created_at ≤ r.updated_at)
    (hclock : ∀ r ∈ st.rows, r.created_at ≤ now) :
    (∀ t st', createTodo now cin st = Except.ok (t, st') →
      ∀ r ∈ st'.rows, r.created_at ≤ r.updated_at) ∧
    (∀ t st', createTodo now cin st = Except.ok (t, st') →
      st'.rows.map (fun r => (r.id, r.created_at))
        = st.rows.map (fun r => (r.id, r.created_at)) ++ [(t.id, t.created_at)]) ∧
    (∀ r ∈ (updateTodo now uin st).snd.rows, r.created_at ≤ r.updated_at) ∧
    ((updateTodo now uin st).snd.rows.map (fun r => (r.id, r.created_at))
      = st.rows.map (fun r => (r.id, r.created_at))) ∧
    (∀ r ∈ (deleteTodo i st).snd.rows, r.created_at ≤ r.updated_at) := by
  refine ⟨?_, ?_, ?_, ?_, ?_⟩
  · intro t st' hok r hr
    unfold createTodo at hok
    by_cases h : cin.title = ""
    · rw [if_pos h] at hok
      exact absurd hok (by simp)
    · rw [if_neg h] at hok
      simp only [Except.ok.injEq, Prod.mk.injEq] at hok
      obtain ⟨ht, hst⟩ := hok
      subst ht
      subst hst
      rcases List.mem_append.mp hr with hold | hnew
      · exact hinv r hold
      · rcases List.mem_singleton.mp hnew with rfl
        exact le_refl now
  · intro t st' hok
    unfold createTodo at hok
    by_cases h : cin.title = ""
    · rw [if_pos h] at hok
      exact absurd hok (by simp)
    · rw [if_neg h] at hok
      simp only [Except.ok.injEq, Prod.mk.injEq] at hok
      obtain ⟨ht, hst⟩ := hok
      subst ht
      subst hst
      rw [List.map_append]
      rfl
  · intro r hr
    have hr2 : r ∈ st.rows.map
        (fun t => if t.id == uin.id then applyUpdate now uin t else t) := hr
    rcases List.mem_map.mp hr2 with ⟨a, ha, rfl⟩
    by_cases h : a.id = uin.id
    · simp only [beq_iff_eq, h, if_true]
      exact hclock a ha
    · simp only [beq_iff_eq, h, if_false]
      exact hinv a ha
  · have hrows : (updateTodo now uin st).snd.rows
        = st.rows.map
            (fun t => if t.id == uin.id then applyUpdate now uin t else t) :=
      rfl
    rw [hrows, List.map_map]
    refine List.map_congr_left ?_
    intro a _
    by_cases h : a.id = uin.id
    · simp [Function.comp, h, applyUpdate]
    · simp [Function.comp, h]
  · intro r hr
    exact hinv r (List.mem_of_mem_filter hr)

theorem created_le_updated_invariant_witness :
    (∀ t st', createTodo 5 ⟨"t", none⟩ ⟨[Todo.mk 0 "a" none false 0 1], 1⟩
        = Except.ok (t, st') →
      ∀ r ∈ st'.rows, r.created_at ≤ r.updated_at) ∧
    (∀ t st', createTodo 5 ⟨"t", none⟩ ⟨[Todo.mk 0 "a" none false 0 1], 1⟩
        = Except.ok (t, st') →
      st'.rows.map (fun r => (r.id, r.created_at))
        = [Todo.mk 0 "a" none false 0 1].map (fun r => (r.id, r.created_at))
            ++ [(t.id, t.created_at)]) ∧
    (∀ r ∈ (updateTodo 5 ⟨0, none, none, some true⟩
        ⟨[Todo.mk 0 "a" none false 0 1], 1⟩).snd.rows,
      r.created_at ≤ r.updated_at) ∧
    ((updateTodo 5 ⟨0, none, none, some true⟩
        ⟨[Todo.mk 0 "a" none false 0 1], 1⟩).snd.rows.map
          (fun r => (r.id, r.created_at))
      = [Todo.mk 0 "a" none false 0 1].map (fun r => (r.id, r.created_at))) ∧
    (∀ r ∈ (deleteTodo 0 ⟨[Todo.mk 0 "a" none false 0 1], 1⟩).snd.rows,
      r.created_at ≤ r.updated_at) :=
  created_le_updated_invariant 5 ⟨"t", none⟩ ⟨0, none, none, some true⟩ 0
    ⟨[Todo.mk 0 "a" none false 0 1], 1⟩ (by decide) (by decide)

end TodoApp
